import Mathlib

/-!
Verification of the serverless-localMarket marketplace backend.

The repository's executable core consists of two AWS Lambda handlers
(`GET /markets` in one file, `GET /products` in another), both of which
issue a DynamoDB `ScanCommand` with an optional single-attribute
`FilterExpression`, and a shared response-envelope module
(`src/api/src/shared/response.ts`).  The remaining components named by the
specification (Order Placement Engine, Authorization Policy) exist only as
design text; the spec itself records that the source contains only `GET`
handlers.  Those components are modelled here from the spec's words and the
corresponding definitions say so in their doc comments.
-/

namespace LocalMarket

/-! ## Data model (spec section 3) -/

/-- A user's role: customer, seller, or both. -/
inductive Role where
  | customer
  | seller
  | both
deriving Repr, DecidableEq

/-- A product record: id, owning seller, market, category, name, price,
stock quantity and creation timestamp. -/
structure Product where
  id : String
  sellerId : String
  marketId : String
  category : String
  name : String
  price : Int
  stockQuantity : Int
  createdAt : Nat
deriving Repr, DecidableEq

/-- A market record: id, name, city. -/
structure Market where
  id : String
  name : String
  city : String
deriving Repr, DecidableEq

/-! ## API Gateway event and DynamoDB scan embedding

`event.queryStringParameters` may be `null` in a Lambda invocation, hence the
outer `Option`; individual parameters may be absent, hence the lookup
returning an `Option`. -/

/-- The part of an APIGatewayProxyEvent the handlers read. -/
structure APIGatewayEvent where
  queryStringParameters : Option (List (String × String))
deriving Repr, DecidableEq

/-- `const \x7b city \x7d = event.queryStringParameters || \x7b\x7d` : read one query
parameter, treating a null parameter map as empty. -/
def getParam (e : APIGatewayEvent) (k : String) : Option String :=
  match e.queryStringParameters with
  | none => none
  | some ps => ps.lookup k

/-- JavaScript truthiness of a possibly-absent string: `undefined` and the
empty string are falsy.  The handlers guard the `FilterExpression` with
`city ? ... : undefined`. -/
def truthy : Option String → Bool
  | none => false
  | some s => decide (s ≠ "")

/-- Result of `docClient.send(new ScanCommand ...)`: DynamoDB may in
principle omit `Items` or `Count`, so both are optional — the handlers
default them with `|| []` and `|| 0`. -/
structure ScanResult (α : Type) where
  Items : Option (List α)
  Count : Option Nat
deriving Repr, DecidableEq

/-- A value thrown by the storage client.  An `Error` instance carries a
`message` and (in V8) a `stack`; any other thrown value carries neither. -/
inductive Thrown where
  | errorObj (message : String) (stack : Option String)
  | nonError
deriving Repr, DecidableEq

/-- `error instanceof Error ? error.message : 'Unknown error'`. -/
def thrownMessage : Thrown → String
  | .errorObj m _ => m
  | .nonError => "Unknown error"

/-- DynamoDB `Scan` semantics over an in-memory table: return the items
satisfying the filter expression (all items when there is none), in table
order, with `Count` the number of returned items.  `Scan` gives no ordering
guarantee beyond the table's own storage order. -/
def dynamoScan (table : List α) (filter : Option (α → Bool)) : ScanResult α :=
  let items := match filter with
    | none => table
    | some p => table.filter p
  { Items := some items, Count := some items.length }

/-! ## The two handlers (get-markets and get-products source files) -/

/-- Body of a `GET /markets` response: the 200 branch carries
`\x7bmarkets, count\x7d`, the catch branch carries `\x7berror, message\x7d`. -/
inductive MarketsBody where
  | ok (markets : List Market) (count : Nat)
  | err (error : String) (message : String)
deriving Repr, DecidableEq

/-- Body of a `GET /products` response: the 200 branch carries
`\x7bproducts, count\x7d`, the catch branch carries `\x7berror, message\x7d`. -/
inductive ProductsBody where
  | ok (products : List Product) (count : Nat)
  | err (error : String) (message : String)
deriving Repr, DecidableEq

/-- An APIGatewayProxyResult: status code and (structured) JSON body. -/
structure Response (β : Type) where
  statusCode : Nat
  body : β
deriving Repr, DecidableEq

/-- The filter the get-markets handler puts in its `ScanCommand`:
`FilterExpression: city ? 'city = :city' : undefined` with
`':city': city`. -/
def cityFilter (city : Option String) : Option (Market → Bool) :=
  if truthy city then some (fun m => m.city == city.getD "") else none

/-- The filter the get-products handler puts in its `ScanCommand`:
`FilterExpression: marketId ? 'marketId = :marketId' : undefined` with
`':marketId': marketId`. -/
def marketIdFilter (marketId : Option String) : Option (Product → Bool) :=
  if truthy marketId then some (fun p => p.marketId == marketId.getD "") else none

/-- The get-markets handler after the `send` call resolves: success maps to
200 with `\x7bmarkets: result.Items || [], count: result.Count || 0\x7d`; any
thrown value is caught and mapped to 500 with
`\x7berror: 'Failed to fetch markets', message: ...\x7d`. -/
def getMarketsHandler (sendOutcome : Except Thrown (ScanResult Market)) :
    Response MarketsBody :=
  match sendOutcome with
  | .ok r => { statusCode := 200, body := .ok (r.Items.getD []) (r.Count.getD 0) }
  | .error t =>
    { statusCode := 500, body := .err "Failed to fetch markets" (thrownMessage t) }

/-- The get-products handler after the `send` call resolves: success maps to
200 with `\x7bproducts: result.Items || [], count: result.Count || 0\x7d`; any
thrown value is caught and mapped to 500 with
`\x7berror: 'Failed to fetch products', message: ...\x7d`. -/
def getProductsHandler (sendOutcome : Except Thrown (ScanResult Product)) :
    Response ProductsBody :=
  match sendOutcome with
  | .ok r => { statusCode := 200, body := .ok (r.Items.getD []) (r.Count.getD 0) }
  | .error t =>
    { statusCode := 500, body := .err "Failed to fetch products" (thrownMessage t) }

/-- End-to-end get-markets invocation against an in-memory markets table:
extract `city`, scan with the optional filter, wrap in the envelope. -/
def getMarkets (table : List Market) (e : APIGatewayEvent) : Response MarketsBody :=
  getMarketsHandler (.ok (dynamoScan table (cityFilter (getParam e "city"))))

/-- End-to-end get-products invocation against an in-memory products table:
extract `marketId`, scan with the optional filter, wrap in the envelope. -/
def getProducts (table : List Product) (e : APIGatewayEvent) : Response ProductsBody :=
  getProductsHandler (.ok (dynamoScan table (marketIdFilter (getParam e "marketId"))))

/-- Markets returned by a response (empty on the error branch). -/
def returnedMarkets (r : Response MarketsBody) : List Market :=
  match r.body with
  | .ok ms _ => ms
  | .err _ _ => []

/-- Count reported by a markets response (0 on the error branch). -/
def marketsCount (r : Response MarketsBody) : Nat :=
  match r.body with
  | .ok _ c => c
  | .err _ _ => 0

/-- Products returned by a response (empty on the error branch). -/
def returnedProducts (r : Response ProductsBody) : List Product :=
  match r.body with
  | .ok ps _ => ps
  | .err _ _ => []

/-- A product list is in createdAt-ascending order. -/
def sortedByCreatedAt : List Product → Bool
  | [] => true
  | [_] => true
  | a :: b :: rest => decide (a.createdAt ≤ b.createdAt) && sortedByCreatedAt (b :: rest)

/-! ## Query operation shape (spec section 4.3 versus the code)

The spec's Query Planner distinguishes a secondary-index lookup from a
full-collection scan.  We embed that distinction as a datatype, record the
operation the code actually builds (always a `ScanCommand`), and, for the
refinement comparison, the operation the spec's words prescribe. -/

/-- The shape of a storage query: a full-collection scan with an in-memory
predicate, or a secondary-index lookup by index name, key and sort key. -/
inductive QueryOp (α : Type) where
  | scan (filter : α → Bool)
  | indexLookup (indexName : String) (key : String) (sortKey : String)

/-- Whether a query operation is a full scan. -/
def QueryOp.isScan : QueryOp α → Bool
  | .scan _ => true
  | .indexLookup _ _ _ => false

/-- Execute a query operation over an in-memory table.  A scan filters the
table in storage order; an index lookup is never produced by this codebase,
so executing one returns the empty sequence. -/
def QueryOp.exec (table : List α) : QueryOp α → List α
  | .scan f => table.filter f
  | .indexLookup _ _ _ => []

/-- The query operation the get-products handler builds: unconditionally a
`ScanCommand`, its filter the optional `marketId = :marketId` expression
(everything passes when the parameter is absent or empty). -/
def productsQueryOp (marketId : Option String) : QueryOp Product :=
  .scan (fun p => match marketIdFilter marketId with
    | some f => f p
    | none => true)

/-- The query operation the get-markets handler builds: unconditionally a
`ScanCommand`, its filter the optional `city = :city` expression. -/
def marketsQueryOp (city : Option String) : QueryOp Market :=
  .scan (fun m => match cityFilter city with
    | some f => f m
    | none => true)

/-- Modelled from the spec: the Query Planner of section 4.3, absent from the
source, which says a filter exactly matching a known secondary-index key
(`marketId` for products) emits an index lookup ordered by the index's sort
key, and otherwise a full scan.  Used only to compare against
`productsQueryOp`, the operation the code builds. -/
def planSpecProducts (marketId : Option String) : QueryOp Product :=
  match marketId with
  | some m =>
    if m = "" then .scan (fun _ => true)
    else .indexLookup "marketId-index" m "createdAt"
  | none => .scan (fun _ => true)

/-! ## Order Placement Engine (spec section 4.4) — modelled from the spec

The source contains no order or stock logic; the spec states the engine's
algorithm as the specification of record.  The definitions below follow its
words: conditional (check-and-set) decrement, list-order attempts, rollback
on failure, all-or-nothing outcome. -/

/-- A line item of an order request. -/
structure LineItem where
  productId : String
  quantity : Int
deriving Repr, DecidableEq

/-- A placed order: buyer, snapshotted line items with unit price at
purchase, and status. -/
structure PlacedItem where
  productId : String
  quantity : Int
  unitPriceAtPurchase : Int
deriving Repr, DecidableEq

/-- Order status. -/
inductive OrderStatus where
  | pending
  | confirmed
  | cancelled
deriving Repr, DecidableEq

/-- An order entity as constructed on success. -/
structure Order where
  userId : String
  items : List PlacedItem
  status : OrderStatus
deriving Repr, DecidableEq

/-- Outcome of `placeOrder`. -/
inductive OrderResult where
  | placed (o : Order)
  | insufficientStock
  | productNotFound
deriving Repr, DecidableEq

/-- The products collection, keyed by `Product.id`. -/
abbrev Store := List Product

/-- Look up a product by id. -/
def findProduct (store : Store) (pid : String) : Option Product :=
  store.find? (fun p => p.id == pid)

/-- Replace the stock quantity of the product with the given id. -/
def setStock (store : Store) (pid : String) (s : Int) : Store :=
  store.map (fun p => if p.id == pid then { p with stockQuantity := s } else p)

/-- Re-increment a product's stock by a quantity (rollback step). -/
def incrementStock (store : Store) (pid : String) (q : Int) : Store :=
  store.map (fun p =>
    if p.id == pid then { p with stockQuantity := p.stockQuantity + q } else p)

/-- Modelled from the spec: the conditional stock decrement of section 4.4
step 3 and the glossary — an atomic update that applies only if the current
stock is at least the requested quantity, and fails otherwise. -/
def condDecrement (store : Store) (it : LineItem) : Option Store :=
  match findProduct store it.productId with
  | none => none
  | some p =>
    if it.quantity ≤ p.stockQuantity then
      some (setStock store it.productId (p.stockQuantity - it.quantity))
    else none

/-- Roll back a list of already-applied decrements by re-incrementing each. -/
def rollback (store : Store) (applied : List LineItem) : Store :=
  applied.foldl (fun st it => incrementStock st it.productId it.quantity) store

/-- Modelled from the spec: the decrement loop of section 4.4 steps 3–4,
absent from the source.  Line items are attempted in list order; on the
first failed conditional decrement every decrement already applied is rolled
back and the whole order fails.  `.error st` is the InsufficientStock
outcome with the rolled-back store `st`. -/
def placeItems (store : Store) (applied : List LineItem) :
    List LineItem → Except Store Store
  | [] => .ok store
  | it :: rest =>
    match condDecrement store it with
    | some st' => placeItems st' (it :: applied) rest
    | none => .error (rollback store applied)

/-- Modelled from the spec: validation of section 4.4 step 1 — every line
item's product exists and its quantity is positive. -/
def validItems (store : Store) (items : List LineItem) : Bool :=
  items.all (fun it => (findProduct store it.productId).isSome && 0 < it.quantity)

/-- Modelled from the spec: snapshot a line item with the product's current
price (section 4.4 steps 2 and 5). -/
def snapshotItem (store : Store) (it : LineItem) : PlacedItem :=
  { productId := it.productId
    quantity := it.quantity
    unitPriceAtPurchase := (findProduct store it.productId).map Product.price |>.getD 0 }

/-- Modelled from the spec: `placeOrder(buyerId, lineItems)` of section 4.4,
absent from the source.  Validate, attempt conditional decrements in order,
roll back and return InsufficientStock on any failure, otherwise persist the
order with snapshotted prices and status pending.  Returns the outcome
together with the resulting products collection. -/
def placeOrder (buyerId : String) (store : Store) (items : List LineItem) :
    OrderResult × Store :=
  if validItems store items then
    match placeItems store [] items with
    | .ok st' =>
      (.placed { userId := buyerId
                 items := items.map (snapshotItem store)
                 status := .pending }, st')
    | .error st' => (.insufficientStock, st')
  else (.productNotFound, store)

/-! ## Single-product concurrent orders (spec sections 5 and 8)

Each order against a single product performs one atomic conditional
decrement; the spec's concurrency model (one worker per request, the
conditional write the only contended step) makes a concurrent execution of
N such orders an arbitrary sequential interleaving of their atomic
decrements.  `runOrders` runs one interleaving and records which orders
succeeded. -/

/-- Run an interleaving of single-product order attempts over a stock
counter: each attempt atomically decrements iff the current stock covers its
quantity.  Returns the final stock and per-attempt success flags. -/
def runOrders (stock : Int) : List Int → Int × List Bool
  | [] => (stock, [])
  | q :: qs =>
    if q ≤ stock then
      let r := runOrders (stock - q) qs
      (r.1, true :: r.2)
    else
      let r := runOrders stock qs
      (r.1, false :: r.2)

/-- Total quantity across the successfully placed attempts of an
interleaving. -/
def totalOrdered (stock : Int) : List Int → Int
  | [] => 0
  | q :: qs =>
    if q ≤ stock then q + totalOrdered (stock - q) qs
    else totalOrdered stock qs

/-! ## Authorization Policy (spec section 4.2) — modelled from the spec -/

/-- An authenticated caller identity, supplied by the external auth
collaborator (never read from the request body). -/
structure Caller where
  id : String
  role : Role
deriving Repr, DecidableEq

/-- Authorization decision. -/
inductive Decision where
  | allow
  | deny (reason : String)
deriving Repr, DecidableEq

/-- Modelled from the spec: `authorize(caller, create Product)` of section
4.2, absent from the source — the caller must have role seller or both;
otherwise Deny. -/
def authorizeCreateProduct (c : Caller) : Decision :=
  match c.role with
  | .seller => .allow
  | .both => .allow
  | .customer => .deny "caller must have role seller or both"

/-- A create-product request body.  It may carry a `sellerId` field, which
must never be trusted. -/
structure ProductInput where
  sellerId : Option String
  marketId : String
  category : String
  name : String
  price : Int
  stockQuantity : Int
deriving Repr, DecidableEq

/-- Body of a create-product response: the created product or an error. -/
inductive CreateProductBody where
  | created (p : Product)
  | err (error : String)
deriving Repr, DecidableEq

/-- Modelled from the spec: the `POST /products` flow, absent from the
source — authorize first (Deny surfaces as 403), then create the product
with `sellerId` forced to the caller's id, never taken from the body. -/
def createProduct (c : Caller) (body : ProductInput) (newId : String)
    (now : Nat) : Response CreateProductBody :=
  match authorizeCreateProduct c with
  | .deny r => { statusCode := 403, body := .err r }
  | .allow =>
    { statusCode := 201
      body := .created
        { id := newId
          sellerId := c.id
          marketId := body.marketId
          category := body.category
          name := body.name
          price := body.price
          stockQuantity := body.stockQuantity
          createdAt := now } }

/-! ## System state and its transitions (spec sections 3 and 5)

One logical request is one worker invocation; the observable state is the
stored collections.  The read handlers come from the source (they issue only
a `Scan`); the two mutating operations on product stock are modelled from the
spec (sections 4.2 and 4.4). -/

/-- The ids of a products collection. -/
def ids (st : Store) : List String := st.map Product.id

/-- Every product in the collection has non-negative stock. -/
def stocksNonneg (st : Store) : Prop := ∀ p ∈ st, 0 ≤ p.stockQuantity

instance (st : Store) : Decidable (stocksNonneg st) := by
  unfold stocksNonneg; infer_instance

/-- The stored collections observable across requests. -/
structure SysState where
  products : Store
  markets : List Market
deriving Repr, DecidableEq

/-- Modelled from the spec: whether a role may create an order (section 4.2
— caller must have role customer or both). -/
def roleCanOrder : Role → Bool
  | .customer => true
  | .both => true
  | .seller => false

/-- Modelled from the spec: a seller updating a product's stock, absent from
the source — `update Product` requires the caller to equal
`Product.sellerId` (section 4.2), and a negative stock quantity is a
`ValidationError` and is rejected (sections 3 and 7). -/
def sellerUpdateStock (c : Caller) (store : Store) (pid : String) (v : Int) :
    Store :=
  match findProduct store pid with
  | none => store
  | some p => if c.id = p.sellerId ∧ 0 ≤ v then setStock store pid v else store

/-- One inbound request, dispatched to a handler or engine. -/
inductive SysAction where
  | readProducts (e : APIGatewayEvent)
  | readMarkets (e : APIGatewayEvent)
  | updateStock (c : Caller) (pid : String) (v : Int)
  | order (c : Caller) (items : List LineItem)
deriving Repr

/-- One reachable state transition: the read handlers never write (they only
issue a `ScanCommand`); stock is touched only by the seller update path and
the Order Placement Engine. -/
def step (s : SysState) : SysAction → SysState
  | .readProducts _ => s
  | .readMarkets _ => s
  | .updateStock c pid v => { s with products := sellerUpdateStock c s.products pid v }
  | .order c items =>
    if roleCanOrder c.role then
      { s with products := (placeOrder c.id s.products items).2 }
    else s

/-! ## Remaining observation helpers and concrete fixtures -/

/-- The sellerId of a created product, if the response carries one. -/
def sellerIdOf : CreateProductBody → Option String
  | .created p => some p.sellerId
  | .err _ => none

/-- The get-markets handler over a sequence of available storage attempt
outcomes: the source performs exactly one `send`, so the response is built
from attempt 0 alone. -/
def getMarketsWithAttempts (attempts : Nat → Except Thrown (ScanResult Market)) :
    Response MarketsBody :=
  getMarketsHandler (attempts 0)

/-- A DynamoDB backend-unavailability failure as thrown to the handler. -/
def storageUnavailableThrown : Thrown :=
  .errorObj "Service Unavailable: backend storage is not reachable" none

/-- Fixture: a product created later in time. -/
def prodLate : Product :=
  { id := "p1", sellerId := "s1", marketId := "m1", category := "fruit"
    name := "Apple", price := 2, stockQuantity := 5, createdAt := 5 }

/-- Fixture: a product created earlier in time, stored after `prodLate`. -/
def prodEarly : Product :=
  { id := "p2", sellerId := "s1", marketId := "m1", category := "fruit"
    name := "Banana", price := 1, stockQuantity := 7, createdAt := 3 }

/-- Fixture: a products table whose storage order disagrees with createdAt
order. -/
def exProductsTable : List Product := [prodLate, prodEarly]

/-- Fixture: a `GET /products?marketId=m1` event. -/
def exMarketIdEvent : APIGatewayEvent := ⟨some [("marketId", "m1")]⟩

/-- Fixture: a one-product store with stock 5. -/
def exStore : Store :=
  [{ id := "P1", sellerId := "s1", marketId := "m1", category := "fruit"
     name := "Mango", price := 3, stockQuantity := 5, createdAt := 1 }]

/-! ## Supporting lemmas -/

/-- Mapping a function that fixes ids over a store fixes the id sequence. -/
theorem ids_map_of_id_fixed (f : Product → Product) (hf : ∀ p, (f p).id = p.id) :
    ∀ st : Store, ids (st.map f) = ids st := by
  intro st
  induction st with
  | nil => rfl
  | cons a t ih =>
    simp only [ids, List.map_cons] at ih ⊢
    rw [hf a, ih]

/-- `setStock` does not change the id sequence. -/
theorem ids_setStock (st : Store) (pid : String) (v : Int) :
    ids (setStock st pid v) = ids st :=
  ids_map_of_id_fixed _ (fun p => by split <;> rfl) st

/-- `incrementStock` does not change the id sequence. -/
theorem ids_incrementStock (st : Store) (pid : String) (q : Int) :
    ids (incrementStock st pid q) = ids st :=
  ids_map_of_id_fixed _ (fun p => by split <;> rfl) st

/-- Unfolding `setStock` one store element at a time. -/
theorem setStock_cons (a : Product) (t : Store) (pid : String) (v : Int) :
    setStock (a :: t) pid v
      = (if a.id == pid then { a with stockQuantity := v } else a)
        :: setStock t pid v := rfl

/-- Unfolding `incrementStock` one store element at a time. -/
theorem incrementStock_cons (a : Product) (t : Store) (pid : String) (q : Int) :
    incrementStock (a :: t) pid q
      = (if a.id == pid then { a with stockQuantity := a.stockQuantity + q } else a)
        :: incrementStock t pid q := rfl

/-- Unfolding `findProduct` one store element at a time. -/
theorem findProduct_cons (a : Product) (t : Store) (pid : String) :
    findProduct (a :: t) pid
      = if a.id == pid then some a else findProduct t pid := by
  show List.find? _ (a :: t) = _
  rw [List.find?_cons]
  cases h : (a.id == pid) <;> simp [h, findProduct]

/-- `rollback` does not change the id sequence. -/
theorem ids_rollback (applied : List LineItem) :
    ∀ st : Store, ids (rollback st applied) = ids st := by
  induction applied with
  | nil => intro st; rfl
  | cons it rest ih =>
    intro st
    show ids (rollback (incrementStock st it.productId it.quantity) rest) = ids st
    rw [ih, ids_incrementStock]

/-- An id-conditional map over a store whose ids avoid `pid` is the
identity. -/
theorem map_if_id_of_not_mem (g : Product → Product) (pid : String) :
    ∀ st : Store, pid ∉ ids st →
      st.map (fun p => if p.id == pid then g p else p) = st := by
  intro st
  induction st with
  | nil => intro _; rfl
  | cons a t ih =>
    intro h
    simp only [ids, List.map_cons, List.mem_cons, not_or] at h
    have hba : (a.id == pid) = false := beq_eq_false_iff_ne.mpr (Ne.symm h.1)
    simp only [List.map_cons, hba, Bool.false_eq_true, if_false]
    rw [ih (by simpa [ids] using h.2)]

/-- `setStock` on a store whose ids avoid `pid` is the identity. -/
theorem setStock_not_mem (t : Store) (pid : String) (v : Int)
    (h : pid ∉ ids t) : setStock t pid v = t :=
  map_if_id_of_not_mem (fun p => { p with stockQuantity := v }) pid t h

/-- `incrementStock` on a store whose ids avoid `pid` is the identity. -/
theorem incrementStock_not_mem (t : Store) (pid : String) (q : Int)
    (h : pid ∉ ids t) : incrementStock t pid q = t :=
  map_if_id_of_not_mem (fun p => { p with stockQuantity := p.stockQuantity + q })
    pid t h

/-- Characterization of a successful conditional decrement. -/
theorem condDecrement_some (st : Store) (it : LineItem) (st₂ : Store)
    (h : condDecrement st it = some st₂) :
    ∃ p, findProduct st it.productId = some p ∧ it.quantity ≤ p.stockQuantity ∧
      st₂ = setStock st it.productId (p.stockQuantity - it.quantity) := by
  unfold condDecrement at h
  split at h
  · exact absurd h (by simp)
  · rename_i p hf
    split at h
    · rename_i hq
      exact ⟨p, hf, hq, (Option.some.inj h).symm⟩
    · exact absurd h (by simp)

/-- Re-incrementing immediately after a conditional decrement restores the
store exactly, provided ids are unique. -/
theorem increment_setStock_cancel (pid : String) (q : Int) :
    ∀ (st : Store) (p : Product), (ids st).Nodup →
      findProduct st pid = some p →
      incrementStock (setStock st pid (p.stockQuantity - q)) pid q = st := by
  intro st
  induction st with
  | nil => intro p _ hf; exact absurd hf (by simp [findProduct])
  | cons a t ih =>
    intro p hN hf
    have hN' := List.nodup_cons.mp (show (a.id :: ids t).Nodup from hN)
    rw [findProduct_cons] at hf
    by_cases hb : (a.id == pid) = true
    · rw [if_pos hb] at hf
      have hpa : a = p := Option.some.inj hf
      have hpid : a.id = pid := beq_iff_eq.mp hb
      have hnotin : pid ∉ ids t := hpid ▸ hN'.1
      rw [← hpa]
      rw [setStock_cons, if_pos hb, setStock_not_mem t pid _ hnotin,
        incrementStock_cons,
        if_pos (show (({ a with stockQuantity := a.stockQuantity - q } : Product).id
          == pid) = true from hb),
        incrementStock_not_mem t pid q hnotin]
      show ({ a with stockQuantity := a.stockQuantity - q + q } : Product) :: t
        = a :: t
      have harith : a.stockQuantity - q + q = a.stockQuantity := by omega
      rw [harith]
    · rw [if_neg hb] at hf
      rw [setStock_cons, if_neg hb, incrementStock_cons, if_neg hb,
        ih p hN'.2 hf]

/-- When the decrement loop fails, the store it returns is the rollback of
the accumulated decrements. -/
theorem placeItems_error_eq (items : List LineItem) :
    ∀ (st : Store) (applied : List LineItem) (st' : Store), (ids st).Nodup →
      placeItems st applied items = .error st' → st' = rollback st applied := by
  induction items with
  | nil =>
    intro st applied st' _ h
    exact absurd h (by simp [placeItems])
  | cons it rest ih =>
    intro st applied st' hN h
    unfold placeItems at h
    cases hcd : condDecrement st it with
    | none =>
      rw [hcd] at h
      exact (Except.error.inj h).symm
    | some st₂ =>
      rw [hcd] at h
      obtain ⟨p, hf, hq, hst₂⟩ := condDecrement_some st it st₂ hcd
      have hids : ids st₂ = ids st := by rw [hst₂]; exact ids_setStock ..
      have h₁ := ih st₂ (it :: applied) st' (by rwa [hids]) h
      have hcancel : incrementStock st₂ it.productId it.quantity = st := by
        rw [hst₂]; exact increment_setStock_cancel _ _ st p hN hf
      calc st' = rollback st₂ (it :: applied) := h₁
        _ = rollback (incrementStock st₂ it.productId it.quantity) applied := rfl
        _ = rollback st applied := by rw [hcancel]

/-- Setting a non-negative stock preserves non-negativity of all stocks. -/
theorem stocksNonneg_setStock (st : Store) (pid : String) (v : Int)
    (hv : 0 ≤ v) (h : stocksNonneg st) : stocksNonneg (setStock st pid v) := by
  intro p hp
  simp only [setStock, List.mem_map] at hp
  obtain ⟨a, ha, hpe⟩ := hp
  by_cases hb : (a.id == pid) = true
  · rw [if_pos hb] at hpe
    rw [← hpe]
    exact hv
  · rw [if_neg hb] at hpe
    rw [← hpe]
    exact h a ha

/-- A successful decrement loop preserves non-negativity of all stocks. -/
theorem placeItems_ok_nonneg (items : List LineItem) :
    ∀ (st : Store) (applied : List LineItem) (st' : Store), stocksNonneg st →
      placeItems st applied items = .ok st' → stocksNonneg st' := by
  induction items with
  | nil =>
    intro st applied st' h hok
    simp only [placeItems] at hok
    injection hok with h'
    rwa [← h']
  | cons it rest ih =>
    intro st applied st' h hok
    unfold placeItems at hok
    cases hcd : condDecrement st it with
    | none => rw [hcd] at hok; exact absurd hok (by simp)
    | some st₂ =>
      rw [hcd] at hok
      obtain ⟨p, _, hq, hst₂⟩ := condDecrement_some st it st₂ hcd
      have h₂ : stocksNonneg st₂ := by
        rw [hst₂]
        exact stocksNonneg_setStock st _ _ (by omega) h
      exact ih st₂ (it :: applied) st' h₂ hok

/-- The Order Placement Engine leaves all stocks non-negative. -/
theorem placeOrder_snd_nonneg (b : String) (store : Store)
    (items : List LineItem) (hN : (ids store).Nodup) (h : stocksNonneg store) :
    stocksNonneg (placeOrder b store items).2 := by
  unfold placeOrder
  by_cases hv : validItems store items = true
  · rw [if_pos hv]
    cases hpi : placeItems store [] items with
    | ok st' => exact placeItems_ok_nonneg items store [] st' h hpi
    | error st' =>
      have := placeItems_error_eq items store [] st' hN hpi
      simp only [rollback, List.foldl_nil] at this
      rw [this]
      exact h
  · rw [if_neg hv]
    exact h

/-- The final stock of an interleaving equals the initial stock minus the
total successfully ordered quantity. -/
theorem runOrders_fst (qs : List Int) :
    ∀ S : Int, (runOrders S qs).1 = S - totalOrdered S qs := by
  induction qs with
  | nil => intro S; simp [runOrders, totalOrdered]
  | cons q rest ih =>
    intro S
    by_cases h : q ≤ S
    · simp only [runOrders, totalOrdered, if_pos h]
      rw [ih (S - q)]
      omega
    · simp only [runOrders, totalOrdered, if_neg h]
      exact ih S

/-- The total successfully ordered quantity never exceeds the initial
stock. -/
theorem totalOrdered_le (qs : List Int) :
    ∀ S : Int, 0 ≤ S → totalOrdered S qs ≤ S := by
  induction qs with
  | nil => intro S hS; simp [totalOrdered]; exact hS
  | cons q rest ih =>
    intro S hS
    by_cases h : q ≤ S
    · simp only [totalOrdered, if_pos h]
      have := ih (S - q) (by omega)
      omega
    · simp only [totalOrdered, if_neg h]
      exact ih S hS

/-! ## Claim theorems -/

/-- C1: for every interleaving of concurrent order placements against a
single product with stock S (each an atomic conditional decrement), the
total quantity successfully ordered never exceeds S, the remaining stock is
S minus the total ordered and stays non-negative, and two simultaneous
orders whose combined quantity exceeds S do not both succeed in either
interleaving. -/
theorem C1_concurrent_orders_bounded (S : Int) (qs : List Int) (hS : 0 ≤ S) :
    totalOrdered S qs ≤ S ∧
      0 ≤ S - totalOrdered S qs ∧
      (runOrders S qs).1 = S - totalOrdered S qs ∧
      (∀ q₁ q₂ : Int, S < q₁ + q₂ →
        (runOrders S [q₁, q₂]).2 ≠ [true, true] ∧
        (runOrders S [q₂, q₁]).2 ≠ [true, true]) := by
  refine ⟨totalOrdered_le qs S hS, by have := totalOrdered_le qs S hS; omega,
    runOrders_fst qs S, ?_⟩
  intro q₁ q₂ hlt
  constructor
  · by_cases h1 : q₁ ≤ S
    · by_cases h2 : q₂ ≤ S - q₁
      · omega
      · simp [runOrders, h1, h2]
    · simp [runOrders, h1]
  · by_cases h1 : q₂ ≤ S
    · by_cases h2 : q₁ ≤ S - q₂
      · omega
      · simp [runOrders, h1, h2]
    · simp [runOrders, h1]

/-- Witness for C1 at stock 5 and two concurrent quantities 3 and 3. -/
theorem C1_concurrent_orders_bounded_witness :
    (0 : Int) ≤ 5 ∧
      (totalOrdered 5 [3, 3] ≤ 5 ∧
        0 ≤ 5 - totalOrdered 5 [3, 3] ∧
        (runOrders 5 [3, 3]).1 = 5 - totalOrdered 5 [3, 3] ∧
        (∀ q₁ q₂ : Int, (5 : Int) < q₁ + q₂ →
          (runOrders 5 [q₁, q₂]).2 ≠ [true, true] ∧
          (runOrders 5 [q₂, q₁]).2 ≠ [true, true])) :=
  ⟨by decide, C1_concurrent_orders_bounded 5 [3, 3] (by decide)⟩

/-- C2: placeOrder is all-or-nothing across its line items — when any line
item's conditional decrement fails, the call returns InsufficientStock and
the resulting store equals the original store, so no partial decrement
persists. -/
theorem C2_placeOrder_all_or_nothing (buyer : String) (store : Store)
    (items : List LineItem) (hN : (ids store).Nodup)
    (hv : validItems store items = true) (st' : Store)
    (hfail : placeItems store [] items = .error st') :
    placeOrder buyer store items = (.insufficientStock, store) := by
  have hroll := placeItems_error_eq items store [] st' hN hfail
  simp only [rollback, List.foldl_nil] at hroll
  unfold placeOrder
  rw [if_pos hv, hfail, hroll]

/-- Witness for C2: one product with stock 5, line items of quantity 3 and 4
— the second decrement fails and the store is restored exactly. -/
theorem C2_placeOrder_all_or_nothing_witness :
    (ids exStore).Nodup ∧
      validItems exStore [⟨"P1", 3⟩, ⟨"P1", 4⟩] = true ∧
      placeItems exStore [] [⟨"P1", 3⟩, ⟨"P1", 4⟩] = .error exStore ∧
      placeOrder "buyer1" exStore [⟨"P1", 3⟩, ⟨"P1", 4⟩]
        = (.insufficientStock, exStore) :=
  ⟨by decide, by decide, by rfl,
    C2_placeOrder_all_or_nothing "buyer1" exStore [⟨"P1", 3⟩, ⟨"P1", 4⟩]
      (by decide) (by decide) exStore (by rfl)⟩

/-- C3: every reachable state transition preserves non-negativity of every
product's stockQuantity, and any transition that changes the products
collection is either a stock update by the owning seller or an Order
Placement Engine invocation. -/
theorem C3_stock_invariant (s : SysState) (a : SysAction)
    (hN : (ids s.products).Nodup) (h : stocksNonneg s.products) :
    stocksNonneg (step s a).products ∧
      ((step s a).products ≠ s.products →
        (∃ c pid v p, a = .updateStock c pid v ∧
          findProduct s.products pid = some p ∧ c.id = p.sellerId) ∨
        (∃ c items, a = .order c items)) := by
  cases a with
  | readProducts e => exact ⟨h, fun hc => absurd rfl hc⟩
  | readMarkets e => exact ⟨h, fun hc => absurd rfl hc⟩
  | updateStock c pid v =>
    constructor
    · show stocksNonneg (sellerUpdateStock c s.products pid v)
      unfold sellerUpdateStock
      split
      · exact h
      · split
        · rename_i hcond
          exact stocksNonneg_setStock s.products pid v hcond.2 h
        · exact h
    · intro hchg
      left
      have hchg' : sellerUpdateStock c s.products pid v ≠ s.products := hchg
      unfold sellerUpdateStock at hchg'
      split at hchg'
      · exact absurd rfl hchg'
      · rename_i p hf
        split at hchg'
        · rename_i hcond
          exact ⟨c, pid, v, p, rfl, hf, hcond.1⟩
        · exact absurd rfl hchg'
  | order c items =>
    constructor
    · show stocksNonneg
          ((if roleCanOrder c.role = true then
              { s with products := (placeOrder c.id s.products items).2 }
            else s) : SysState).products
      by_cases hr : roleCanOrder c.role = true
      · rw [if_pos hr]
        exact placeOrder_snd_nonneg c.id s.products items hN h
      · rw [if_neg hr]
        exact h
    · intro _
      right
      exact ⟨c, items, rfl⟩

/-- Witness for C3: the owning seller sets the stock of the only product to
7; stocks stay non-negative and the mutation is attributed to the seller. -/
theorem C3_stock_invariant_witness :
    (ids exStore).Nodup ∧ stocksNonneg exStore ∧
      (stocksNonneg
          (step ⟨exStore, []⟩ (.updateStock ⟨"s1", .seller⟩ "P1" 7)).products ∧
        ((step ⟨exStore, []⟩ (.updateStock ⟨"s1", .seller⟩ "P1" 7)).products
            ≠ exStore →
          (∃ c pid v p,
            SysAction.updateStock ⟨"s1", .seller⟩ "P1" 7 = .updateStock c pid v ∧
            findProduct exStore pid = some p ∧ c.id = p.sellerId) ∨
          (∃ c items,
            SysAction.updateStock ⟨"s1", .seller⟩ "P1" 7 = .order c items))) :=
  ⟨by decide, by decide,
    C3_stock_invariant ⟨exStore, []⟩ (.updateStock ⟨"s1", .seller⟩ "P1" 7)
      (by decide) (by decide)⟩

/-- Counterexample to C4: with marketId=m1 against a table whose storage
order disagrees with createdAt order, the handler returns the matching
products in storage order, not sorted by createdAt; and with the empty
marketId value the filter is dropped, so products of other marketIds are
returned as well. -/
theorem C4_counterexample_scan_order :
    returnedProducts (getProducts exProductsTable exMarketIdEvent)
        = [prodLate, prodEarly] ∧
      prodEarly.createdAt < prodLate.createdAt ∧
      sortedByCreatedAt
          (returnedProducts (getProducts exProductsTable exMarketIdEvent))
        = false ∧
      returnedProducts (getProducts exProductsTable ⟨some [("marketId", "")]⟩)
        = [prodLate, prodEarly] ∧
      prodLate.marketId ≠ "" := by
  refine ⟨by decide, by decide, by decide, by decide, by decide⟩

/-- C4 (amended): for every nonempty marketId value M, the GET /products
handler returns status 200 and exactly the stored products whose marketId
equals M, in storage (scan) order — with no createdAt ordering guarantee. -/
theorem C4_products_marketId_exact (table : List Product) (M : String)
    (hM : M ≠ "") :
    (getProducts table ⟨some [("marketId", M)]⟩).statusCode = 200 ∧
      returnedProducts (getProducts table ⟨some [("marketId", M)]⟩)
        = table.filter (fun p => p.marketId == M) := by
  have hf : marketIdFilter (some M) = some (fun p => p.marketId == M) := by
    simp [marketIdFilter, truthy, hM]
  constructor
  · rfl
  · show returnedProducts
        (getProductsHandler (.ok (dynamoScan table (marketIdFilter (some M)))))
      = table.filter (fun p => p.marketId == M)
    rw [hf]
    rfl

/-- Witness for C4 (amended) at marketId m1 over the fixture table. -/
theorem C4_products_marketId_exact_witness :
    ("m1" : String) ≠ "" ∧
      ((getProducts exProductsTable ⟨some [("marketId", "m1")]⟩).statusCode = 200 ∧
        returnedProducts (getProducts exProductsTable ⟨some [("marketId", "m1")]⟩)
          = exProductsTable.filter (fun p => p.marketId == "m1")) :=
  ⟨by decide, C4_products_marketId_exact exProductsTable "m1" (by decide)⟩

/-- Counterexample to C5: the marketId-filtered product query the code
builds is a full scan, while the spec's planner would emit an index
lookup. -/
theorem C5_counterexample_marketId_scan :
    (productsQueryOp (some "m1")).isScan = true ∧
      (planSpecProducts (some "m1")).isScan = false :=
  ⟨rfl, rfl⟩

/-- C5 (amended): every query the code builds — filtered or not, for
products and for markets — is a full-collection scan whose execution returns
exactly the items passing the in-memory filter predicate; no query is
index-backed. -/
theorem C5_all_queries_full_scans (mId cty : Option String)
    (tableP : List Product) (tableM : List Market) :
    (productsQueryOp mId).isScan = true ∧
      (marketsQueryOp cty).isScan = true ∧
      (productsQueryOp mId).exec tableP
        = (dynamoScan tableP (marketIdFilter mId)).Items.getD [] ∧
      (marketsQueryOp cty).exec tableM
        = (dynamoScan tableM (cityFilter cty)).Items.getD [] := by
  refine ⟨rfl, rfl, ?_, ?_⟩
  · cases hmf : marketIdFilter mId with
    | none => simp [QueryOp.exec, productsQueryOp, dynamoScan, hmf]
    | some f => simp [QueryOp.exec, productsQueryOp, dynamoScan, hmf]
  · cases hcf : cityFilter cty with
    | none => simp [QueryOp.exec, marketsQueryOp, dynamoScan, hcf]
    | some f => simp [QueryOp.exec, marketsQueryOp, dynamoScan, hcf]

/-- C6: GET /markets?city=Medellin returns only markets whose city is
Medellin, and an unfiltered GET /markets returns all stored markets with the
reported count equal to the length of the returned sequence. -/
theorem C6_markets_city_and_unfiltered (table : List Market) :
    ((returnedMarkets (getMarkets table ⟨some [("city", "Medellin")]⟩)).all
        (fun m => m.city == "Medellin")) = true ∧
      returnedMarkets (getMarkets table ⟨none⟩) = table ∧
      marketsCount (getMarkets table ⟨none⟩) = table.length := by
  refine ⟨?_, rfl, rfl⟩
  · have hrm : returnedMarkets (getMarkets table ⟨some [("city", "Medellin")]⟩)
        = table.filter (fun m => m.city == "Medellin") := rfl
    rw [hrm, List.all_eq_true]
    intro m hm
    exact (List.mem_filter.mp hm).2

/-- C7: create Product by a customer-only caller is denied (403) regardless
of the request body, and for a seller or both-role caller the created
product's sellerId is the caller's id, never taken from the body. -/
theorem C7_create_product_authorization (cid : String) (body : ProductInput)
    (newId : String) (now : Nat) :
    (createProduct ⟨cid, .customer⟩ body newId now).statusCode = 403 ∧
      authorizeCreateProduct ⟨cid, .customer⟩
        = .deny "caller must have role seller or both" ∧
      sellerIdOf (createProduct ⟨cid, .seller⟩ body newId now).body = some cid ∧
      sellerIdOf (createProduct ⟨cid, .both⟩ body newId now).body = some cid :=
  ⟨rfl, rfl, rfl, rfl⟩

/-- Counterexample to C8: a backend-unavailability failure is surfaced by
both handlers with status 500, not 503. -/
theorem C8_counterexample_no_503 :
    (getMarketsHandler (.error storageUnavailableThrown)).statusCode = 500 ∧
      (getMarketsHandler (.error storageUnavailableThrown)).statusCode ≠ 503 ∧
      (getProductsHandler (.error storageUnavailableThrown)).statusCode ≠ 503 :=
  ⟨by decide, by decide, by decide⟩

/-- C8 (amended): a backend storage failure is surfaced as 500 with an
error/message body; the handler performs a single storage attempt and no
internal retry — its response is determined by attempt 0 alone. -/
theorem C8_storage_failure_500_single_attempt (t : Thrown)
    (a₁ a₂ : Nat → Except Thrown (ScanResult Market)) (h : a₁ 0 = a₂ 0) :
    (getMarketsHandler (.error t)).statusCode = 500 ∧
      (getMarketsHandler (.error t)).body
        = .err "Failed to fetch markets" (thrownMessage t) ∧
      (getProductsHandler (.error t)).statusCode = 500 ∧
      getMarketsWithAttempts a₁ = getMarketsWithAttempts a₂ := by
  refine ⟨rfl, rfl, rfl, ?_⟩
  unfold getMarketsWithAttempts
  rw [h]

/-- Witness for C8 (amended) at a concrete unavailability failure. -/
theorem C8_storage_failure_500_single_attempt_witness :
    (getMarketsHandler (.error storageUnavailableThrown)).statusCode = 500 ∧
      (getMarketsHandler (.error storageUnavailableThrown)).body
        = .err "Failed to fetch markets" (thrownMessage storageUnavailableThrown) ∧
      (getProductsHandler (.error storageUnavailableThrown)).statusCode = 500 ∧
      getMarketsWithAttempts (fun _ => .error storageUnavailableThrown)
        = getMarketsWithAttempts (fun _ => .error storageUnavailableThrown) :=
  C8_storage_failure_500_single_attempt storageUnavailableThrown
    (fun _ => .error storageUnavailableThrown)
    (fun _ => .error storageUnavailableThrown) rfl

/-- C9: every unexpected failure is answered with status 500 and a body of
exactly an error field and a message field, the message being the thrown
error's own message (or a fixed fallback), and the response is independent
of the error's stack trace. -/
theorem C9_unexpected_failure_envelope (t : Thrown) (m : String)
    (s₁ s₂ : Option String) :
    getMarketsHandler (.error t)
        = ⟨500, .err "Failed to fetch markets" (thrownMessage t)⟩ ∧
      getProductsHandler (.error t)
        = ⟨500, .err "Failed to fetch products" (thrownMessage t)⟩ ∧
      thrownMessage (.errorObj m s₁) = m ∧
      getMarketsHandler (.error (.errorObj m s₁))
        = getMarketsHandler (.error (.errorObj m s₂)) :=
  ⟨rfl, rfl, rfl, rfl⟩

/-- C10: both GET handlers always answer with status 200 or 500 (every
thrown storage error is caught and mapped to 500), the success body defaults
to an empty item list and count 0 when the storage result omits Items or
Count, and a scan-backed invocation returns 200 for every event, including
one whose queryStringParameters is null. -/
theorem C10_handlers_always_200_or_500
    (sendM : Except Thrown (ScanResult Market))
    (sendP : Except Thrown (ScanResult Product)) (tableM : List Market)
    (tableP : List Product) (e : APIGatewayEvent) :
    ((getMarketsHandler sendM).statusCode = 200 ∨
        (getMarketsHandler sendM).statusCode = 500) ∧
      ((getProductsHandler sendP).statusCode = 200 ∨
        (getProductsHandler sendP).statusCode = 500) ∧
      (∀ t : Thrown, (getMarketsHandler (.error t)).statusCode = 500 ∧
        (getProductsHandler (.error t)).statusCode = 500) ∧
      (getMarketsHandler (.ok ⟨none, none⟩)).body = .ok [] 0 ∧
      (getProductsHandler (.ok ⟨none, none⟩)).body = .ok [] 0 ∧
      (getMarkets tableM e).statusCode = 200 ∧
      (getMarkets tableM ⟨none⟩).statusCode = 200 ∧
      (getProducts tableP e).statusCode = 200 := by
  refine ⟨?_, ?_, fun t => ⟨rfl, rfl⟩, rfl, rfl, rfl, rfl, rfl⟩
  · cases sendM with
    | ok r => exact Or.inl rfl
    | error t => exact Or.inr rfl
  · cases sendP with
    | ok r => exact Or.inl rfl
    | error t => exact Or.inr rfl

end LocalMarket
